import Mathlib

/-!
Verification of the VLSM subnet calculator (`src/subnet.rs`,
`src/subnets_calculator.rs`).

Modelling conventions:
* `Ipv4Addr` is modelled as a natural number `< 2^32` (the value of the four
  octets in big-endian order); the octet-wise `BitAnd`/`BitOr` of
  `std::net::Ipv4Addr` coincide with 32-bit `Nat.land`/`Nat.lor`, and
  `!mask` (octet-wise complement) is `2^32 - 1 - mask` for `mask < 2^32`.
* `Ipv4Addr::to_string` followed by `Ipv4Addr::parse` is the identity on
  valid addresses, so the allocator loop (which threads the cursor through a
  string) is modelled by threading the numeric address directly; claims about
  parse failures of user-supplied strings are not among the claims treated
  here, so `Subnet::new` takes the already-parsed numeric address.
* `u32` arithmetic that panics in debug builds (subtraction underflow in
  `2^k - 2`, overflow inside `u32::next_power_of_two`) is modelled by
  returning `none`; `some (.error e)` models `Err(e)`, `some (.ok v)` models
  `Ok(v)`.
* `(hosts.next_power_of_two() as f32).log2().ceil() as u32`: the argument is
  always an exact power of two `2^k` with `k ≤ 31` (larger inputs panic in
  `next_power_of_two` first), `2^k` is exactly representable in `f32`, its
  base-2 logarithm is exactly `k`, and `ceil` leaves it unchanged, so the
  whole expression equals the exact base-2 logarithm modelled below by the
  structurally recursive `floor_log2`.
-/

namespace Subnetting

/-- Rust `const IPV4_BITS: u32 = 32`. -/
def IPV4_BITS : Nat := 32

/-- Rust `const MAX_OCTET_VALUE: u8 = 255`. -/
def MAX_OCTET_VALUE : Nat := 255

/-- The numeric value of `Ipv4Addr::new(a, b, c, d)`. -/
def ipv4 (a b c d : Nat) : Nat := ((a * 256 + b) * 256 + c) * 256 + d

/-- Octet-wise complement `!x` of an `Ipv4Addr`, as a 32-bit complement. -/
def not32 (x : Nat) : Nat := 2 ^ 32 - 1 - x

/-- Rust `ipnet::IpAdd::saturating_add` on `Ipv4Addr`: addition saturating at
`255.255.255.255`. -/
def saturating_add (a b : Nat) : Nat := min (a + b) (2 ^ 32 - 1)

/-- Rust `enum SubnetError` from `src/subnet.rs` (the `IoError` variant wraps an
`io::Error` and is never produced by the core arithmetic, so it is omitted). -/
inductive SubnetError where
  | InvalidIpAddress : String → SubnetError
  | InvalidCidr : Nat → SubnetError
deriving DecidableEq

/-- Rust `struct Subnet` from `src/subnet.rs`. -/
structure Subnet where
  network : Nat
  mask : Nat
  «class» : Char
  cidr : Nat
  first_host : Nat
  last_host : Nat
  broadcast : Nat
  gateway : Nat
  hosts : Nat
  real_hosts : Nat
  next_subnet : Nat
  next_cidr : Nat
deriving DecidableEq

/-- Fuel-driven loop of `u32::next_power_of_two` (`power` starts at 1 and is
doubled while `power < n`); 32 units of fuel suffice for every `u32`. -/
def npo2_go (n : Nat) : Nat → Nat → Nat
  | 0, power => power
  | fuel + 1, power => if power < n then npo2_go n fuel (power * 2) else power

/-- Rust `u32::next_power_of_two`: the least power of two that is `≥ n` (and `1`
for `n = 0`).  For `n > 2^31` the `u32` result would overflow, which panics in
debug builds: modelled as `none`. -/
def next_power_of_two (n : Nat) : Option Nat :=
  if n ≤ 2 ^ 31 then some (npo2_go n 32 1) else none

/-- Fuel-driven floor of the base-2 logarithm. -/
def log2_go : Nat → Nat → Nat
  | 0, _ => 0
  | fuel + 1, n => if 2 ≤ n then log2_go fuel (n / 2) + 1 else 0

/-- Floor of the base-2 logarithm; on the exact powers of two produced by
`next_power_of_two` this is exactly
`(x as f32).log2().ceil() as u32` (see the file comment). -/
def floor_log2 (n : Nat) : Nat := log2_go 40 n

/-- Rust `u32::MAX.checked_shl(shift).unwrap_or(0)`: `checked_shl` yields `None`
for shift amounts `≥ 32`. -/
def checked_shl_max_or_zero (shift : Nat) : Nat :=
  if 32 ≤ shift then 0 else (0xFFFFFFFF <<< shift) % 2 ^ 32

/-- Rust `Subnet::cidr_to_mask` from `src/subnet.rs`. -/
def cidr_to_mask (cidr : Nat) : Except SubnetError Nat :=
  if cidr > IPV4_BITS then .error (.InvalidCidr cidr)
  else .ok (checked_shl_max_or_zero (IPV4_BITS - cidr))

/-- Rust `Subnet::determine_class` from `src/subnet.rs`. -/
def determine_class (cidr : Nat) : Char :=
  if cidr ≤ 8 then 'A'
  else if cidr ≤ 16 then 'B'
  else if cidr ≤ 24 then 'C'
  else if cidr ≤ 32 then 'D'
  else 'E'

/-- Rust `Subnet::new` from `src/subnet.rs` (taking the already-parsed numeric
network address, see the file comment). -/
def Subnet.new (network : Nat) (cidr : Nat) (hosts : Nat) :
    Except SubnetError Subnet :=
  match cidr_to_mask cidr with
  | .error e => .error e
  | .ok mask =>
      .ok { network := network
            mask := mask
            cidr := cidr
            broadcast := 0
            gateway := 0
            first_host := 0
            last_host := 0
            hosts := hosts
            real_hosts := 0
            «class» := determine_class cidr
            next_subnet := 0
            next_cidr := 0 }

/-- Rust `Subnet::calculate` from `src/subnet.rs`.  `none` models a debug-build
panic (overflow in `next_power_of_two`, or `u32` underflow in the
subtraction `u32::pow(2, cidr_offset) - 2` when `cidr_offset = 0`). -/
def Subnet.calculate (s : Subnet) : Option (Except SubnetError Subnet) :=
  match next_power_of_two s.hosts with
  | none => none
  | some p =>
      let cidr_offset := floor_log2 p
      if 2 ^ cidr_offset < 2 then none
      else
        let real_hosts := 2 ^ cidr_offset - 2
        let new_cidr := IPV4_BITS - cidr_offset
        match cidr_to_mask new_cidr with
        | .error e => some (.error e)
        | .ok new_mask =>
            let broadcast := s.network ||| not32 new_mask
            some (.ok { s with
              real_hosts := real_hosts
              broadcast := broadcast
              gateway := broadcast &&& ipv4 255 255 255 254
              first_host := s.network ||| ipv4 0 0 0 1
              last_host := broadcast &&& ipv4 255 255 255 253
              next_subnet := saturating_add broadcast 1
              next_cidr := new_cidr })

/-- Insertion step of a stable descending sort. -/
def insertDesc (x : Nat) : List Nat → List Nat
  | [] => [x]
  | y :: ys => if y < x then x :: y :: ys else y :: insertDesc x ys

/-- Rust `self.num_hosts_array.sort_by(|a, b| b.cmp(a))`: stable descending sort
(on `Nat` every correct descending sort agrees with the stable one). -/
def sortDesc : List Nat → List Nat
  | [] => []
  | x :: xs => insertDesc x (sortDesc xs)

/-- The cursor loop of `SubnetCalculator::calculate`: build a subnet at the
cursor, run `calculate`, append, and advance the cursor to
`(next_subnet, next_cidr)` (the Rust code round-trips `next_subnet` through
a string, which is the identity on the numeric value). -/
def run_vlsm : List Nat → Nat → Nat → Option (Except SubnetError (List Subnet))
  | [], _, _ => some (.ok [])
  | h :: rest, network, cidr =>
      match Subnet.new network cidr h with
      | .error e => some (.error e)
      | .ok s =>
          match s.calculate with
          | none => none
          | some (.error e) => some (.error e)
          | some (.ok s2) =>
              match run_vlsm rest s2.next_subnet s2.next_cidr with
              | none => none
              | some (.error e) => some (.error e)
              | some (.ok tail) => some (.ok (s2 :: tail))

/-- Rust `struct SubnetCalculator` from `src/subnets_calculator.rs`. -/
structure SubnetCalculator where
  subnets : List Subnet
  num_hosts_array : List Nat
deriving DecidableEq

/-- Rust `SubnetCalculator::new`. -/
def SubnetCalculator.new (num_hosts_array : List Nat) : SubnetCalculator :=
  { subnets := [], num_hosts_array := num_hosts_array }

/-- Rust `SubnetCalculator::calculate`: sorts the host counts descending and runs
the cursor loop.  On `Err` the Rust method leaves the already-pushed subnets
in `self.subnets` and returns the error; the claims treated here only
quantify over successful runs, so the error value alone is returned. -/
def SubnetCalculator.calculate (c : SubnetCalculator) (network cidr : Nat) :
    Option (Except SubnetError SubnetCalculator) :=
  let sorted := sortDesc c.num_hosts_array
  match run_vlsm sorted network cidr with
  | none => none
  | some (.error e) => some (.error e)
  | some (.ok l) =>
      some (.ok { subnets := c.subnets ++ l, num_hosts_array := sorted })

/-- Decidable equality for `Except`, so that concrete runs of the model can
be checked by `decide`. -/
instance {ε α : Type} [DecidableEq ε] [DecidableEq α] : DecidableEq (Except ε α) :=
  fun x y =>
    match x, y with
    | .error a, .error b =>
        if h : a = b then isTrue (congrArg Except.error h)
        else isFalse (fun hc => h (Except.error.inj hc))
    | .ok a, .ok b =>
        if h : a = b then isTrue (congrArg Except.ok h)
        else isFalse (fun hc => h (Except.ok.inj hc))
    | .error _, .ok _ => isFalse (fun hc => Except.noConfusion hc)
    | .ok _, .error _ => isFalse (fun hc => Except.noConfusion hc)

/-! ### Derived definitions used to state and check the properties -/

/-- The record produced by a successful `Subnet::calculate`, written in
closed form with `k = clog₂ hosts` (the number of host bits).  This is a
derived characterization, proved equal to `Subnet.calculate`'s result in
`calculate_eq`; it is not a second translation of the source. -/
def calcFields (s : Subnet) : Subnet :=
  let k := Nat.clog 2 s.hosts
  let b := s.network ||| (2 ^ k - 1)
  { s with
    real_hosts := 2 ^ k - 2
    broadcast := b
    gateway := b &&& (2 ^ 32 - 2)
    first_host := s.network ||| 1
    last_host := b &&& (2 ^ 32 - 3)
    next_subnet := min (b + 1) (2 ^ 32 - 1)
    next_cidr := 32 - k }

/-- Build a block with `Subnet::new` and run `Subnet::calculate` on it,
keeping only a fully successful result. -/
def calcResultOf (net cidr hosts : Nat) : Option Subnet :=
  match Subnet.new net cidr hosts with
  | .error _ => none
  | .ok s =>
      match s.calculate with
      | some (.ok r) => some r
      | _ => none

/-- Predicate `headNet l net`: the first block of `l` (if any) starts at
address `net`. -/
def headNet : List Subnet → Nat → Prop
  | [], _ => True
  | s :: _, net => s.network = net

/-- The subnet list of a fully successful `SubnetCalculator::calculate`. -/
def subnetsOf : Option (Except SubnetError SubnetCalculator) → Option (List Subnet)
  | some (.ok c) => some c.subnets
  | _ => none

/-- A fresh not-yet-calculated block at `192.168.1.0/24` with the given host
count (the mask/class fields match `Subnet::new ("192.168.1.0", 24, hosts)`). -/
def blockHosts (hosts : Nat) : Subnet :=
  { network := ipv4 192 168 1 0
    mask := ipv4 255 255 255 0
    cidr := 24
    broadcast := 0
    gateway := 0
    first_host := 0
    last_host := 0
    hosts := hosts
    real_hosts := 0
    «class» := 'C'
    next_subnet := 0
    next_cidr := 0 }

/-- The block `192.168.1.0/24` with 50 requested hosts (as built by
`Subnet::new`). -/
def sampleBlock : Subnet := blockHosts 50

/-- The state of `sampleBlock` after a successful `calculate` (values as
produced by the code: a 64-address block `192.168.1.0/26`). -/
def sampleResult : Subnet :=
  { network := ipv4 192 168 1 0
    mask := ipv4 255 255 255 0
    cidr := 24
    first_host := ipv4 192 168 1 1
    last_host := ipv4 192 168 1 61
    broadcast := ipv4 192 168 1 63
    gateway := ipv4 192 168 1 62
    hosts := 50
    real_hosts := 62
    «class» := 'C'
    next_subnet := ipv4 192 168 1 64
    next_cidr := 26 }

/-- The concrete allocator run of the specification's worked example:
network `192.168.1.0`, CIDR 24, host counts `[10, 50, 2]`. -/
def c2_calc : Option (Except SubnetError SubnetCalculator) :=
  (SubnetCalculator.new [10, 50, 2]).calculate (ipv4 192 168 1 0) 24

/-- For each block of the example run: network, computed prefix, usable
hosts, broadcast and next-subnet cursor. -/
def c2_summaries : Option (List (Nat × Nat × Nat × Nat × Nat)) :=
  (subnetsOf c2_calc).map
    (List.map fun s => (s.network, s.next_cidr, s.real_hosts, s.broadcast, s.next_subnet))

/-- For each block of the example run: computed prefix and usable hosts. -/
def c2_prefix_hosts : Option (List (Nat × Nat)) :=
  (subnetsOf c2_calc).map (List.map fun s => (s.next_cidr, s.real_hosts))

/-- An allocator run whose cursor saturates at the top of the IPv4 space:
two 2-host blocks starting at `255.255.255.254/30`. -/
def c8_sat : Option (Except SubnetError SubnetCalculator) :=
  (SubnetCalculator.new [2, 2]).calculate (ipv4 255 255 255 254) 30

/-- The calculator state after the witness run `[2, 2]` from `10.0.0.0/24`
(two /31 blocks, values exactly as the code computes them). -/
def c8w_calc : SubnetCalculator :=
  { subnets :=
      [{ network := ipv4 10 0 0 0
         mask := ipv4 255 255 255 0
         cidr := 24
         first_host := ipv4 10 0 0 1
         last_host := ipv4 10 0 0 1
         broadcast := ipv4 10 0 0 1
         gateway := ipv4 10 0 0 0
         hosts := 2
         real_hosts := 0
         «class» := 'C'
         next_subnet := ipv4 10 0 0 2
         next_cidr := 31 },
       { network := ipv4 10 0 0 2
         mask := ipv4 255 255 255 254
         cidr := 31
         first_host := ipv4 10 0 0 3
         last_host := ipv4 10 0 0 1
         broadcast := ipv4 10 0 0 3
         gateway := ipv4 10 0 0 2
         hosts := 2
         real_hosts := 0
         «class» := 'D'
         next_subnet := ipv4 10 0 0 4
         next_cidr := 31 }]
    num_hosts_array := [2, 2] }

/-! ### Arithmetic facts about the fuel-driven helpers -/

theorem npo2_go_of_le {n p : Nat} (fuel : Nat) (h : n ≤ p) :
    npo2_go n fuel p = p := by
  cases fuel with
  | zero => rfl
  | succ fuel => simp [npo2_go, Nat.not_lt.mpr h]

theorem npo2_go_spec (n : Nat) :
    ∀ fuel i, n ≤ 2 ^ (i + fuel) →
      npo2_go n fuel (2 ^ i) = 2 ^ max i (Nat.clog 2 n) := by
  intro fuel
  induction fuel with
  | zero =>
      intro i h
      rw [Nat.add_zero] at h
      have hc : Nat.clog 2 n ≤ i := (Nat.le_pow_iff_clog_le one_lt_two).mp h
      rw [npo2_go_of_le 0 h, Nat.max_eq_left hc]
  | succ fuel ih =>
      intro i h
      by_cases hle : n ≤ 2 ^ i
      · have hc : Nat.clog 2 n ≤ i := (Nat.le_pow_iff_clog_le one_lt_two).mp hle
        rw [npo2_go_of_le (fuel + 1) hle, Nat.max_eq_left hc]
      · have hlt : 2 ^ i < n := Nat.lt_of_not_le hle
        have hc : i < Nat.clog 2 n := by
          by_contra hcon
          exact hle ((Nat.le_pow_iff_clog_le one_lt_two).mpr (Nat.le_of_not_lt hcon))
        have hstep : npo2_go n (fuel + 1) (2 ^ i) = npo2_go n fuel (2 ^ (i + 1)) := by
          simp [npo2_go, hlt, Nat.pow_succ]
        rw [hstep, ih (i + 1) (by rw [show i + 1 + fuel = i + (fuel + 1) by omega]; exact h)]
        have h1 : max (i + 1) (Nat.clog 2 n) = Nat.clog 2 n := Nat.max_eq_right hc
        have h2 : max i (Nat.clog 2 n) = Nat.clog 2 n :=
          Nat.max_eq_right (Nat.le_of_lt hc)
        rw [h1, h2]

theorem next_power_of_two_eq {n : Nat} (h : n ≤ 2 ^ 31) :
    next_power_of_two n = some (2 ^ Nat.clog 2 n) := by
  have h32 : n ≤ 2 ^ (0 + 32) := le_trans h (by norm_num)
  have := npo2_go_spec n 32 0 h32
  simp only [pow_zero] at this
  rw [next_power_of_two, if_pos h, this, Nat.max_eq_right (Nat.zero_le _)]

theorem log2_go_pow : ∀ fuel k, k < fuel → log2_go fuel (2 ^ k) = k := by
  intro fuel
  induction fuel with
  | zero => intro k hk; omega
  | succ fuel ih =>
      intro k hk
      cases k with
      | zero => simp [log2_go]
      | succ k =>
          have h2 : 2 ≤ 2 ^ (k + 1) := by
            have := Nat.pow_le_pow_right (show 1 ≤ 2 by norm_num)
              (show 1 ≤ k + 1 by omega)
            simpa using this
          have hdiv : 2 ^ (k + 1) / 2 = 2 ^ k := by
            rw [Nat.pow_succ, Nat.mul_div_cancel _ (by norm_num)]
          simp only [log2_go, if_pos h2, hdiv, ih k (by omega)]

theorem floor_log2_pow {k : Nat} (h : k ≤ 39) : floor_log2 (2 ^ k) = k :=
  log2_go_pow 40 k (by omega)

theorem checked_shl_eq {t : Nat} (h : t < 32) :
    checked_shl_max_or_zero t = 2 ^ 32 - 2 ^ t := by
  rw [checked_shl_max_or_zero, if_neg (by omega)]
  have hsl : (0xFFFFFFFF : Nat) <<< t = (2 ^ 32 - 1) * 2 ^ t := by
    rw [Nat.shiftLeft_eq]; norm_num
  have hle : 2 ^ t ≤ 2 ^ 32 := Nat.pow_le_pow_right (by norm_num) (by omega)
  have hpos : 0 < 2 ^ t := Nat.two_pow_pos t
  have key : (2 ^ 32 - 1) * 2 ^ t = 2 ^ 32 * (2 ^ t - 1) + (2 ^ 32 - 2 ^ t) := by
    omega
  rw [hsl, key, Nat.mul_add_mod, Nat.mod_eq_of_lt (by omega)]

theorem cidr_to_mask_ok {c : Nat} (h : c ≤ 32) :
    cidr_to_mask c = .ok (checked_shl_max_or_zero (32 - c)) := by
  rw [cidr_to_mask, if_neg (by simp [IPV4_BITS]; omega)]
  rfl

theorem cidr_to_mask_eq {c : Nat} (h1 : 1 ≤ c) (h2 : c ≤ 32) :
    cidr_to_mask c = .ok (2 ^ 32 - 2 ^ (32 - c)) := by
  rw [cidr_to_mask_ok h2, checked_shl_eq (by omega)]

theorem cidr_to_mask_err {c : Nat} (h : 32 < c) :
    cidr_to_mask c = .error (.InvalidCidr c) := by
  rw [cidr_to_mask, if_pos (by simp [IPV4_BITS]; omega)]

theorem not32_mask {t : Nat} (h : t ≤ 32) :
    not32 (2 ^ 32 - 2 ^ t) = 2 ^ t - 1 := by
  have hle : 2 ^ t ≤ 2 ^ 32 := Nat.pow_le_pow_right (by norm_num) h
  have hpos : 0 < 2 ^ t := Nat.two_pow_pos t
  rw [not32]
  omega

/-! ### Bit-level facts used to characterize the derived address fields -/

theorem testBit_mul_pow_add {q t c : Nat} (hc : c < 2 ^ t) (j : Nat) :
    Nat.testBit (q * 2 ^ t + c) j =
      if j < t then Nat.testBit c j else Nat.testBit q (j - t) := by
  by_cases hj : j < t
  · rw [if_pos hj]
    have hsplit : 2 ^ t = 2 ^ (t - j) * 2 ^ j := by
      rw [← Nat.pow_add]
      congr 1
      omega
    have hdiv : (q * 2 ^ t + c) / 2 ^ j = q * 2 ^ (t - j) + c / 2 ^ j := by
      rw [hsplit, ← Nat.mul_assoc, Nat.add_comm,
        Nat.add_mul_div_right _ _ (Nat.two_pow_pos j), Nat.add_comm]
    have heven : q * 2 ^ (t - j) % 2 = 0 := by
      rw [show 2 ^ (t - j) = 2 * 2 ^ (t - j - 1) by
            rw [← Nat.pow_succ']; congr 1; omega,
        Nat.mul_left_comm]
      exact Nat.mul_mod_right 2 _
    have hmod : (q * 2 ^ (t - j) + c / 2 ^ j) % 2 = c / 2 ^ j % 2 := by omega
    rw [Nat.testBit_to_div_mod, Nat.testBit_to_div_mod, hdiv, hmod]
  · rw [if_neg hj]
    have hsplit : 2 ^ j = 2 ^ t * 2 ^ (j - t) := by
      rw [← Nat.pow_add]
      congr 1
      omega
    have hdivt : (q * 2 ^ t + c) / 2 ^ t = q := by
      rw [Nat.add_comm, Nat.add_mul_div_right _ _ (Nat.two_pow_pos t),
        Nat.div_eq_of_lt hc, Nat.zero_add]
    rw [Nat.testBit_to_div_mod, Nat.testBit_to_div_mod, hsplit,
      ← Nat.div_div_eq_div_mul, hdivt]

theorem lor_low (n t : Nat) :
    n ||| (2 ^ t - 1) = n / 2 ^ t * 2 ^ t + (2 ^ t - 1) := by
  apply Nat.eq_of_testBit_eq
  intro j
  rw [Nat.testBit_lor, Nat.testBit_two_pow_sub_one,
    testBit_mul_pow_add (Nat.sub_lt (Nat.two_pow_pos t) one_pos) j]
  by_cases hj : j < t
  · rw [if_pos hj, Nat.testBit_two_pow_sub_one, decide_eq_true hj, Bool.or_true]
  · rw [if_neg hj, decide_eq_false hj, Bool.or_false]
    have hsplit : 2 ^ j = 2 ^ t * 2 ^ (j - t) := by
      rw [← Nat.pow_add]
      congr 1
      omega
    rw [Nat.testBit_to_div_mod, Nat.testBit_to_div_mod, hsplit,
      ← Nat.div_div_eq_div_mul]

theorem lor_low_mod {n t : Nat} : (n ||| (2 ^ t - 1)) % 2 ^ t = 2 ^ t - 1 := by
  rw [lor_low, Nat.add_comm, Nat.add_mul_mod_self_right,
    Nat.mod_eq_of_lt (Nat.sub_lt (Nat.two_pow_pos t) one_pos)]

theorem le_lor_low (n t : Nat) : n ≤ n ||| (2 ^ t - 1) := by
  rw [lor_low]
  have hd : n / 2 ^ t * 2 ^ t + n % 2 ^ t = n := Nat.div_add_mod' n (2 ^ t)
  have hm : n % 2 ^ t < 2 ^ t := Nat.mod_lt _ (Nat.two_pow_pos t)
  have hp : 0 < 2 ^ t := Nat.two_pow_pos t
  omega

theorem land_high_sub_two {x : Nat} (hx : x < 2 ^ 32) (hodd : x % 2 = 1) :
    x &&& (2 ^ 32 - 2) = x - 1 := by
  have hx2 : x / 2 < 2 ^ 31 := by omega
  have hxdec : x = x / 2 * 2 ^ 1 + 1 := by rw [pow_one]; omega
  have hxsub : x - 1 = x / 2 * 2 ^ 1 + 0 := by rw [pow_one]; omega
  have hconst : (2 : Nat) ^ 32 - 2 = (2 ^ 31 - 1) * 2 ^ 1 + 0 := by norm_num
  apply Nat.eq_of_testBit_eq
  intro j
  rw [Nat.testBit_land]
  conv_lhs => rw [hxdec, hconst]
  conv_rhs => rw [hxsub]
  rw [testBit_mul_pow_add (show (1 : Nat) < 2 ^ 1 by norm_num) j,
    testBit_mul_pow_add (show (0 : Nat) < 2 ^ 1 by norm_num) j,
    testBit_mul_pow_add (show (0 : Nat) < 2 ^ 1 by norm_num) j]
  by_cases hj : j < 1
  · have hj0 : j = 0 := by omega
    subst hj0
    rw [if_pos (show (0 : Nat) < 1 by norm_num), if_pos (show (0 : Nat) < 1 by norm_num),
      if_pos (show (0 : Nat) < 1 by norm_num)]
    decide
  · rw [if_neg hj, if_neg hj, if_neg hj, Nat.testBit_two_pow_sub_one]
    by_cases hj31 : j - 1 < 31
    · rw [decide_eq_true hj31, Bool.and_true]
    · rw [decide_eq_false hj31, Bool.and_false]
      have hsmall : x / 2 < 2 ^ (j - 1) :=
        lt_of_lt_of_le hx2 (Nat.pow_le_pow_right (by norm_num) (by omega))
      rw [Nat.testBit_lt_two_pow hsmall]

theorem land_high_sub_three {x : Nat} (hx : x < 2 ^ 32) (hmod : x % 4 = 3) :
    x &&& (2 ^ 32 - 3) = x - 2 := by
  have hx4 : x / 4 < 2 ^ 30 := by omega
  have hxdec : x = x / 4 * 2 ^ 2 + 3 := by
    rw [show (2 : Nat) ^ 2 = 4 by norm_num]
    omega
  have hxsub : x - 2 = x / 4 * 2 ^ 2 + 1 := by
    rw [show (2 : Nat) ^ 2 = 4 by norm_num]
    omega
  have hconst : (2 : Nat) ^ 32 - 3 = (2 ^ 30 - 1) * 2 ^ 2 + 1 := by norm_num
  apply Nat.eq_of_testBit_eq
  intro j
  rw [Nat.testBit_land]
  conv_lhs => rw [hxdec, hconst]
  conv_rhs => rw [hxsub]
  rw [testBit_mul_pow_add (show (3 : Nat) < 2 ^ 2 by norm_num) j,
    testBit_mul_pow_add (show (1 : Nat) < 2 ^ 2 by norm_num) j,
    testBit_mul_pow_add (show (1 : Nat) < 2 ^ 2 by norm_num) j]
  by_cases hj : j < 2
  · rw [if_pos hj, if_pos hj, if_pos hj]
    interval_cases j <;> decide
  · rw [if_neg hj, if_neg hj, if_neg hj, Nat.testBit_two_pow_sub_one]
    by_cases hj30 : j - 2 < 30
    · rw [decide_eq_true hj30, Bool.and_true]
    · rw [decide_eq_false hj30, Bool.and_false]
      have hsmall : x / 4 < 2 ^ (j - 2) :=
        lt_of_lt_of_le hx4 (Nat.pow_le_pow_right (by norm_num) (by omega))
      rw [Nat.testBit_lt_two_pow hsmall]

theorem lor_one_of_even {n : Nat} (h : n % 2 = 0) : n ||| 1 = n + 1 := by
  have h1 : n ||| 1 = n / 2 * 2 + 1 := by
    have := lor_low n 1
    norm_num at this
    exact this
  have hd := Nat.div_add_mod n 2
  omega

/-! ### Characterization of `Subnet.calculate` -/

theorem calculate_eq {s : Subnet} (h2 : 2 ≤ s.hosts) (h31 : s.hosts ≤ 2 ^ 31) :
    s.calculate = some (.ok (calcFields s)) := by
  have hk1 : 1 ≤ Nat.clog 2 s.hosts := Nat.clog_pos one_lt_two h2
  have hk31 : Nat.clog 2 s.hosts ≤ 31 :=
    (Nat.le_pow_iff_clog_le one_lt_two).mp h31
  have hfl : floor_log2 (2 ^ Nat.clog 2 s.hosts) = Nat.clog 2 s.hosts :=
    floor_log2_pow (by omega)
  have hpow2 : ¬ 2 ^ Nat.clog 2 s.hosts < 2 := by
    have : (2 : Nat) ^ 1 ≤ 2 ^ Nat.clog 2 s.hosts :=
      Nat.pow_le_pow_right (by norm_num) hk1
    simp only [pow_one] at this
    omega
  have hmask : cidr_to_mask (32 - Nat.clog 2 s.hosts) =
      .ok (2 ^ 32 - 2 ^ Nat.clog 2 s.hosts) := by
    have h1 : 1 ≤ 32 - Nat.clog 2 s.hosts := by omega
    have h2' : 32 - Nat.clog 2 s.hosts ≤ 32 := by omega
    rw [cidr_to_mask_eq h1 h2',
      show 32 - (32 - Nat.clog 2 s.hosts) = Nat.clog 2 s.hosts by omega]
  rw [Subnet.calculate, next_power_of_two_eq h31]
  simp only [IPV4_BITS, hfl, if_neg hpow2, hmask,
    not32_mask (show Nat.clog 2 s.hosts ≤ 32 by omega)]
  simp only [calcFields, saturating_add, ipv4]
  norm_num

theorem calculate_none_of_small {s : Subnet} (h : s.hosts ≤ 1) :
    s.calculate = none := by
  have h31 : s.hosts ≤ 2 ^ 31 := by norm_num; omega
  have hk0 : Nat.clog 2 s.hosts = 0 := by
    have : Nat.clog 2 s.hosts ≤ 0 :=
      (Nat.le_pow_iff_clog_le one_lt_two).mp (by simpa using h)
    omega
  rw [Subnet.calculate, next_power_of_two_eq h31, hk0, pow_zero]
  simp only [show floor_log2 1 = 0 by decide, pow_zero,
    if_pos (show (1 : Nat) < 2 by norm_num)]

theorem calculate_none_of_big {s : Subnet} (h : 2 ^ 31 < s.hosts) :
    s.calculate = none := by
  rw [Subnet.calculate, next_power_of_two, if_neg (by omega)]

theorem calculate_ok_elim {s r : Subnet} (h : s.calculate = some (.ok r)) :
    2 ≤ s.hosts ∧ s.hosts ≤ 2 ^ 31 ∧ r = calcFields s := by
  by_cases h31 : s.hosts ≤ 2 ^ 31
  · by_cases h2 : 2 ≤ s.hosts
    · refine ⟨h2, h31, ?_⟩
      rw [calculate_eq h2 h31] at h
      exact (Except.ok.inj (Option.some.inj h)).symm
    · rw [calculate_none_of_small (by omega)] at h
      exact absurd h (by simp)
  · rw [calculate_none_of_big (by omega)] at h
    exact absurd h (by simp)

theorem new_ok_elim {net cidr hosts : Nat} {s : Subnet}
    (h : Subnet.new net cidr hosts = .ok s) :
    s.network = net ∧ s.hosts = hosts ∧ s.cidr = cidr ∧
      s.«class» = determine_class cidr := by
  rw [Subnet.new] at h
  cases hm : cidr_to_mask cidr with
  | error e => rw [hm] at h; exact absurd h (by simp)
  | ok m =>
      rw [hm] at h
      have := Except.ok.inj h
      subst this
      exact ⟨rfl, rfl, rfl, rfl⟩

/-! ### Claim C10 -/

/-- C10: `Subnet::calculate` is total only for `hosts ≥ 2`.  For `hosts = 0`
or `1`, `next_power_of_two` yields `1`, the bit count `k` is `0`, and the
`u32` expression `2^k - 2` underflows (a debug-build panic, modelled as
`none`) instead of returning a result or an error; for every
`2 ≤ hosts ≤ 2^31` the subtraction does not underflow and `calculate`
returns `Ok`. -/
theorem C10_calculate_totality :
    (∀ s : Subnet, s.hosts ≤ 1 → s.calculate = none) ∧
    (∀ s : Subnet, 2 ≤ s.hosts → s.hosts ≤ 2 ^ 31 →
      s.calculate = some (.ok (calcFields s))) :=
  ⟨fun _ h => calculate_none_of_small h,
   fun _ h2 h31 => calculate_eq h2 h31⟩

/-- Witness for C10 at `hosts = 1` and `hosts = 2`. -/
theorem C10_witness :
    (blockHosts 1).calculate = none ∧
    (blockHosts 2).calculate = some (.ok (calcFields (blockHosts 2))) :=
  ⟨C10_calculate_totality.1 (blockHosts 1) (by decide),
   C10_calculate_totality.2 (blockHosts 2) (by decide) (by decide)⟩

/-! ### Claim C9 -/

/-- C9: `Subnet::calculate` is idempotent: if `calculate` succeeded on a
block, running it again on the result succeeds and leaves every field
unchanged. -/
theorem C9_calculate_idempotent :
    ∀ s r : Subnet, s.calculate = some (.ok r) → r.calculate = some (.ok r) := by
  intro s r h
  obtain ⟨h2, h31, hr⟩ := calculate_ok_elim h
  subst hr
  have hh : (calcFields s).hosts = s.hosts := rfl
  have hstep := calculate_eq (s := calcFields s) (by rw [hh]; exact h2)
    (by rw [hh]; exact h31)
  rw [hstep]
  rfl

/-- Witness for C9: the already-calculated 50-host block at `192.168.1.0/24`
recalculates to itself. -/
theorem C9_witness : sampleResult.calculate = some (.ok sampleResult) :=
  C9_calculate_idempotent sampleBlock sampleResult (by decide)

/-! ### Claim C4 -/

/-- C4 (amended): a successful `Subnet::calculate` derives a fresh mask from
the computed prefix `32 - k` only to compute the broadcast; the block's
`mask` field is left at its construction-time value. -/
theorem C4_mask_not_recomputed :
    ∀ s r : Subnet, s.calculate = some (.ok r) → r.mask = s.mask := by
  intro s r h
  obtain ⟨_, _, hr⟩ := calculate_ok_elim h
  subst hr
  rfl

/-- Witness for C4 on the 50-host block at `192.168.1.0/24`. -/
theorem C4_witness : sampleResult.mask = sampleBlock.mask :=
  C4_mask_not_recomputed sampleBlock sampleResult (by decide)

/-- Counterexample for C4 as stated: after calculating the 50-host block at
`192.168.1.0/24` the computed prefix is 26, but the `mask` field still holds
the construction-time `/24` mask `255.255.255.0`, not the `/26` mask
`255.255.255.192` derived from the computed prefix. -/
theorem C4_counterexample :
    (calcResultOf (ipv4 192 168 1 0) 24 50).map
        (fun r => (r.mask, r.next_cidr)) = some (ipv4 255 255 255 0, 26) ∧
    cidr_to_mask 26 = .ok (ipv4 255 255 255 192) ∧
    ipv4 255 255 255 0 ≠ ipv4 255 255 255 192 := by decide

/-! ### Claim C5 -/

/-- C5: the classification letter is produced by the bucket rule
`0–8 → 'A'`, `9–16 → 'B'`, `17–24 → 'C'`, `25–32 → 'D'` (otherwise `'E'`)
applied to the construction-time prefix, and `calculate` never updates it:
the 50-host block constructed at prefix 24 keeps class `'C'` even though its
computed prefix is 26, whose bucket is `'D'` (the doc comment of
`Subnet::calculate` lists `class` among the recalculated fields, but the
method never assigns it). -/
theorem C5_class_from_construction_prefix :
    (calcResultOf (ipv4 192 168 1 0) 24 50).map
        (fun r => (r.«class», r.next_cidr)) = some ('C', 26) ∧
    determine_class 24 = 'C' ∧ determine_class 26 = 'D' ∧
    determine_class 8 = 'A' ∧ determine_class 9 = 'B' ∧ determine_class 16 = 'B' ∧
    determine_class 17 = 'C' ∧ determine_class 25 = 'D' ∧ determine_class 32 = 'D' ∧
    determine_class 33 = 'E' := by decide

/-! ### Claim C6 -/

/-- C6 (amended): `Subnet::new` with any prefix length above 32 fails with
`InvalidCidr` carrying that prefix; but an oversized host count
(`hosts > 2^31`) makes `calculate` panic inside `next_power_of_two`
(modelled `none`) rather than return `InvalidCidr`. -/
theorem C6_invalid_cidr :
    (∀ net cidr hosts : Nat, 32 < cidr →
      Subnet.new net cidr hosts = .error (.InvalidCidr cidr)) ∧
    (∀ s : Subnet, 2 ^ 31 < s.hosts → s.calculate = none) := by
  constructor
  · intro net cidr hosts h
    rw [Subnet.new, cidr_to_mask_err h]
  · intro s h
    exact calculate_none_of_big h

/-- Witness for C6 at prefix 33 and at the maximal `u32` host count. -/
theorem C6_witness :
    Subnet.new (ipv4 192 168 1 0) 33 10 = .error (.InvalidCidr 33) ∧
    (blockHosts (2 ^ 32 - 1)).calculate = none :=
  ⟨C6_invalid_cidr.1 (ipv4 192 168 1 0) 33 10 (by norm_num),
   C6_invalid_cidr.2 (blockHosts (2 ^ 32 - 1)) (by decide)⟩

/-- Counterexample for C6 as stated: the largest representable host count
makes `calculate` panic (modelled `none`) — it does not return an
`InvalidCidr` error as the claim demands. -/
theorem C6_counterexample :
    (blockHosts (2 ^ 32 - 1)).hosts = 2 ^ 32 - 1 ∧
    (blockHosts (2 ^ 32 - 1)).calculate = none := by
  constructor
  · rfl
  · exact calculate_none_of_big (by decide)

/-! ### Claim C1 -/

/-- C1 (amended): for every base prefix `≤ 32` and host count
`2 ≤ h ≤ 2^30 - 2`, construction and `calculate` succeed and set
`real_hosts = 2^⌈log₂ h⌉ - 2 = next_power_of_two(h) - 2`, where
`⌈log₂ h⌉ = Nat.clog 2 h` is the least `k` with `2^k ≥ h`. -/
theorem C1_usable_hosts (net cidr h : Nat) (hcidr : cidr ≤ 32) (h2 : 2 ≤ h)
    (hle : h ≤ 2 ^ 30 - 2) :
    ∃ s : Subnet, Subnet.new net cidr h = .ok s ∧
      s.calculate = some (.ok (calcFields s)) ∧
      (calcFields s).real_hosts = 2 ^ Nat.clog 2 h - 2 ∧
      h ≤ 2 ^ Nat.clog 2 h ∧
      (∀ j : Nat, h ≤ 2 ^ j → Nat.clog 2 h ≤ j) := by
  refine ⟨{ network := net
            mask := checked_shl_max_or_zero (32 - cidr)
            cidr := cidr
            broadcast := 0
            gateway := 0
            first_host := 0
            last_host := 0
            hosts := h
            real_hosts := 0
            «class» := determine_class cidr
            next_subnet := 0
            next_cidr := 0 }, ?_, ?_, ?_, ?_, ?_⟩
  · rw [Subnet.new, cidr_to_mask_ok hcidr]
  · refine calculate_eq h2 ?_
    show h ≤ 2 ^ 31
    have hb : (2 : Nat) ^ 30 - 2 ≤ 2 ^ 31 := by norm_num
    omega
  · rfl
  · exact Nat.le_pow_clog one_lt_two h
  · intro j hj
    exact (Nat.le_pow_iff_clog_le one_lt_two).mp hj

/-- Witness for C1 at `h = 5` on `192.168.1.0/24`. -/
theorem C1_witness :
    ((24 : Nat) ≤ 32 ∧ (2 : Nat) ≤ 5 ∧ (5 : Nat) ≤ 2 ^ 30 - 2) ∧
    (∃ s : Subnet, Subnet.new (ipv4 192 168 1 0) 24 5 = .ok s ∧
      s.calculate = some (.ok (calcFields s)) ∧
      (calcFields s).real_hosts = 2 ^ Nat.clog 2 5 - 2 ∧
      5 ≤ 2 ^ Nat.clog 2 5 ∧
      (∀ j : Nat, 5 ≤ 2 ^ j → Nat.clog 2 5 ≤ j)) :=
  ⟨by norm_num,
   C1_usable_hosts (ipv4 192 168 1 0) 24 5 (by norm_num) (by norm_num) (by norm_num)⟩

/-- Counterexample for C1 as stated: at `h = 7` the code computes
`real_hosts = 2^⌈log₂ 7⌉ - 2 = 6`, which is neither `≥ 7` nor the value 14
the claim's example demands. -/
theorem C1_counterexample :
    (calcResultOf (ipv4 192 168 1 0) 24 7).map Subnet.real_hosts = some 6 ∧
    ¬ (7 : Nat) ≤ 6 ∧ (6 : Nat) ≠ 14 := by decide

/-! ### Claims C3 and C7 -/

theorem broadcast_mod_facts {s : Subnet} (h2 : 2 ≤ s.hosts) (h31 : s.hosts ≤ 2 ^ 31)
    (hn : s.network < 2 ^ 32) :
    (calcFields s).broadcast < 2 ^ 32 ∧ (calcFields s).broadcast % 2 = 1 ∧
      (2 ≤ Nat.clog 2 s.hosts → (calcFields s).broadcast % 4 = 3) := by
  have hk1 : 1 ≤ Nat.clog 2 s.hosts := Nat.clog_pos one_lt_two h2
  have hk31 : Nat.clog 2 s.hosts ≤ 31 :=
    (Nat.le_pow_iff_clog_le one_lt_two).mp h31
  set k := Nat.clog 2 s.hosts with hk
  have hb : (calcFields s).broadcast = s.network ||| (2 ^ k - 1) := rfl
  have hklt : (2 : Nat) ^ k - 1 < 2 ^ 32 := by
    have : (2 : Nat) ^ k ≤ 2 ^ 31 := Nat.pow_le_pow_right (by norm_num) hk31
    have h31' : (2 : Nat) ^ 31 < 2 ^ 32 := by norm_num
    omega
  have hlt : (calcFields s).broadcast < 2 ^ 32 := by
    rw [hb]
    exact Nat.or_lt_two_pow hn hklt
  have hmodk : (s.network ||| (2 ^ k - 1)) % 2 ^ k = 2 ^ k - 1 := lor_low_mod
  refine ⟨hlt, ?_, ?_⟩
  · have hdvd : (2 : Nat) ∣ 2 ^ k := dvd_pow_self 2 (by omega)
    have := Nat.mod_mod_of_dvd (s.network ||| (2 ^ k - 1)) hdvd
    have hpk : 2 ^ 1 ≤ 2 ^ k := Nat.pow_le_pow_right (by norm_num) hk1
    rw [pow_one] at hpk
    rw [hb]
    omega
  · intro hk2
    have hdvd : (4 : Nat) ∣ 2 ^ k := by
      have : 2 ^ k = 4 * 2 ^ (k - 2) := by
        rw [show (4 : Nat) = 2 ^ 2 by norm_num, ← Nat.pow_add]
        congr 1
        omega
      exact ⟨2 ^ (k - 2), this⟩
    have := Nat.mod_mod_of_dvd (s.network ||| (2 ^ k - 1)) hdvd
    have hpk : 2 ^ 2 ≤ 2 ^ k := Nat.pow_le_pow_right (by norm_num) hk2
    rw [show (2 : Nat) ^ 2 = 4 by norm_num] at hpk
    rw [hb]
    omega

/-- C3 (amended): the octet-masking shortcut for `gateway`
(`broadcast AND 255.255.255.254`) and `last_host`
(`broadcast AND 255.255.255.253`) agrees with `broadcast - 1` and
`broadcast - 2` for every computed prefix `≤ 30` — in particular for every
computed prefix `< 24`, such as a `/16` allocation, where it is also
correct — because the broadcast address of a block with `32 - p ≥ 2` host
bits always ends in two 1-bits, so the decrement never borrows.  Only the
degenerate computed prefix 31 can make `last_host` differ from
`broadcast - 2`. -/
theorem C3_gateway_last_host :
    ∀ s r : Subnet, s.network < 2 ^ 32 → s.calculate = some (.ok r) →
      r.gateway = r.broadcast - 1 ∧
      (r.next_cidr ≤ 30 → r.last_host = r.broadcast - 2) := by
  intro s r hn h
  obtain ⟨h2, h31, hr⟩ := calculate_ok_elim h
  subst hr
  obtain ⟨hlt, hodd, hmod4⟩ := broadcast_mod_facts h2 h31 hn
  have hk31 : Nat.clog 2 s.hosts ≤ 31 :=
    (Nat.le_pow_iff_clog_le one_lt_two).mp h31
  constructor
  · show (calcFields s).broadcast &&& (2 ^ 32 - 2) = (calcFields s).broadcast - 1
    exact land_high_sub_two hlt hodd
  · intro hcidr
    have hk2 : 2 ≤ Nat.clog 2 s.hosts := by
      have : (calcFields s).next_cidr = 32 - Nat.clog 2 s.hosts := rfl
      omega
    show (calcFields s).broadcast &&& (2 ^ 32 - 3) = (calcFields s).broadcast - 2
    exact land_high_sub_three hlt (hmod4 hk2)

/-- Witness for C3 on the 50-host block at `192.168.1.0/24` (computed prefix
26). -/
theorem C3_witness :
    sampleResult.gateway = sampleResult.broadcast - 1 ∧
    (sampleResult.next_cidr ≤ 30 →
      sampleResult.last_host = sampleResult.broadcast - 2) :=
  C3_gateway_last_host sampleBlock sampleResult (by decide) (by decide)

/-- Counterexample for C3 as stated: the claim asserts the shortcut is
correct for every computed prefix `≥ 24`, but a 2-host block at
`192.168.1.0/24` gets computed prefix 31 and `last_host = broadcast`
(`192.168.1.1`), not `broadcast - 2`. -/
theorem C3_counterexample :
    (calcResultOf (ipv4 192 168 1 0) 24 2).map
        (fun r => (r.next_cidr, r.broadcast, r.last_host)) =
      some (31, ipv4 192 168 1 1, ipv4 192 168 1 1) ∧
    (24 : Nat) ≤ 31 ∧
    ipv4 192 168 1 1 ≠ ipv4 192 168 1 1 - 2 := by decide

/-- C7 (amended): for every successful `calculate`,
`first_host = network OR 0.0.0.1` (which equals `network + 1` exactly when
the network address is even), `broadcast = network OR NOT mask'` for the
mask `mask'` of the computed prefix, and `next_subnet = broadcast + 1`
saturating at `255.255.255.255`; the computed prefix always lies in `1–31`
(prefix 32 would require `hosts ≤ 1`, which panics instead — see C10). -/
theorem C7_derived_fields :
    ∀ s r : Subnet, s.calculate = some (.ok r) →
      r.first_host = s.network ||| 1 ∧
      (s.network % 2 = 0 → r.first_host = s.network + 1) ∧
      (∃ m, cidr_to_mask r.next_cidr = .ok m ∧
        r.broadcast = s.network ||| not32 m) ∧
      r.next_subnet = min (r.broadcast + 1) (2 ^ 32 - 1) ∧
      1 ≤ r.next_cidr ∧ r.next_cidr ≤ 31 := by
  intro s r h
  obtain ⟨h2, h31, hr⟩ := calculate_ok_elim h
  subst hr
  have hk1 : 1 ≤ Nat.clog 2 s.hosts := Nat.clog_pos one_lt_two h2
  have hk31 : Nat.clog 2 s.hosts ≤ 31 :=
    (Nat.le_pow_iff_clog_le one_lt_two).mp h31
  have hcidr : (calcFields s).next_cidr = 32 - Nat.clog 2 s.hosts := rfl
  refine ⟨rfl, ?_, ?_, rfl, ?_, ?_⟩
  · intro heven
    show s.network ||| 1 = s.network + 1
    exact lor_one_of_even heven
  · refine ⟨2 ^ 32 - 2 ^ Nat.clog 2 s.hosts, ?_, ?_⟩
    · rw [hcidr, cidr_to_mask_eq (by omega) (by omega),
        show 32 - (32 - Nat.clog 2 s.hosts) = Nat.clog 2 s.hosts by omega]
    · rw [not32_mask (by omega)]
      rfl
  · omega
  · omega

/-- Witness for C7 on the 50-host block at `192.168.1.0/24`. -/
theorem C7_witness :
    sampleResult.first_host = sampleBlock.network ||| 1 ∧
    (sampleBlock.network % 2 = 0 →
      sampleResult.first_host = sampleBlock.network + 1) ∧
    (∃ m, cidr_to_mask sampleResult.next_cidr = .ok m ∧
      sampleResult.broadcast = sampleBlock.network ||| not32 m) ∧
    sampleResult.next_subnet = min (sampleResult.broadcast + 1) (2 ^ 32 - 1) ∧
    1 ≤ sampleResult.next_cidr ∧ sampleResult.next_cidr ≤ 31 :=
  C7_derived_fields sampleBlock sampleResult (by decide)

/-- Counterexample for C7 as stated: a block whose (odd) network address is
`0.0.0.1` gets `first_host = network OR 1 = 0.0.0.1 ≠ network + 1`; and a
block that would need computed prefix 32 (`hosts = 1`) crashes (modelled
`none`) rather than being computed. -/
theorem C7_counterexample :
    (calcResultOf (ipv4 0 0 0 1) 24 2).map Subnet.first_host =
      some (ipv4 0 0 0 1) ∧
    ipv4 0 0 0 1 ≠ ipv4 0 0 0 1 + 1 ∧
    (blockHosts 1).calculate = none := by decide

/-! ### Claims C8 and C2 -/

theorem run_vlsm_good :
    ∀ (hosts : List Nat) (net cidr : Nat) (l : List Subnet),
      net < 2 ^ 32 → run_vlsm hosts net cidr = some (.ok l) →
      headNet l net ∧
      (∀ s ∈ l, net ≤ s.network ∧ s.network ≤ s.broadcast ∧ s.broadcast < 2 ^ 32 ∧
        s.next_subnet = min (s.broadcast + 1) (2 ^ 32 - 1)) ∧
      l.Chain' (fun a b => b.network = a.next_subnet) ∧
      ((∀ s ∈ l, s.broadcast < 2 ^ 32 - 1) →
        l.Pairwise (fun a b => a.broadcast < b.network)) := by
  intro hosts
  induction hosts with
  | nil =>
      intro net cidr l hn h
      simp only [run_vlsm] at h
      have hl : l = [] := (Except.ok.inj (Option.some.inj h)).symm
      subst hl
      refine ⟨trivial, by simp, by simp, fun _ => by simp⟩
  | cons hh rest ih =>
      intro net cidr l hn h
      simp only [run_vlsm] at h
      split at h
      · exact absurd h (by simp)
      · rename_i s hnew
        split at h
        · exact absurd h (by simp)
        · exact absurd h (by simp)
        · rename_i s2 hcalc
          split at h
          · exact absurd h (by simp)
          · exact absurd h (by simp)
          · rename_i tail hrest
            have hl : l = s2 :: tail := (Except.ok.inj (Option.some.inj h)).symm
            subst hl
            obtain ⟨hsn, hsh, -, -⟩ := new_ok_elim hnew
            obtain ⟨h2, h31, hs2⟩ := calculate_ok_elim hcalc
            subst hs2
            have hk31 : Nat.clog 2 s.hosts ≤ 31 :=
              (Nat.le_pow_iff_clog_le one_lt_two).mp h31
            have hklt : (2 : Nat) ^ Nat.clog 2 s.hosts - 1 < 2 ^ 32 := by
              have h1 : (2 : Nat) ^ Nat.clog 2 s.hosts ≤ 2 ^ 31 :=
                Nat.pow_le_pow_right (by norm_num) hk31
              have h2' : (2 : Nat) ^ 31 < 2 ^ 32 := by norm_num
              omega
            have hb : (calcFields s).broadcast =
                s.network ||| (2 ^ Nat.clog 2 s.hosts - 1) := rfl
            have hnet2 : (calcFields s).network = net := by
              show s.network = net
              exact hsn
            have hble : net ≤ (calcFields s).broadcast := by
              rw [hb, ← hsn]
              exact le_lor_low _ _
            have hblt : (calcFields s).broadcast < 2 ^ 32 := by
              rw [hb]
              exact Nat.or_lt_two_pow (by rw [hsn]; exact hn) hklt
            have hnext : (calcFields s).next_subnet =
                min ((calcFields s).broadcast + 1) (2 ^ 32 - 1) := rfl
            have hnextlt : (calcFields s).next_subnet < 2 ^ 32 := by
              rw [hnext]
              exact lt_of_le_of_lt (min_le_right _ _) (by norm_num)
            have hnetle : net ≤ (calcFields s).next_subnet := by
              rw [hnext]
              refine le_min ?_ ?_
              · exact le_trans hble (Nat.le_succ _)
              · exact Nat.le_pred_of_lt hn
            obtain ⟨ihHead, ihAll, ihChain, ihPair⟩ :=
              ih (calcFields s).next_subnet (calcFields s).next_cidr tail hnextlt hrest
            refine ⟨hnet2, ?_, ?_, ?_⟩
            · intro x hx
              rcases List.mem_cons.mp hx with hx | hx
              · subst hx
                refine ⟨le_of_eq hnet2.symm, ?_, hblt, hnext⟩
                rw [hnet2]
                exact hble
              · obtain ⟨ha, hb', hc', hd'⟩ := ihAll x hx
                exact ⟨le_trans hnetle ha, hb', hc', hd'⟩
            · rw [List.chain'_cons']
              refine ⟨?_, ihChain⟩
              intro y hy
              cases tail with
              | nil => simp at hy
              | cons t ts =>
                  have hy' : t = y := by simpa using hy
                  subst hy'
                  exact ihHead
            · intro hns
              rw [List.pairwise_cons]
              have hsat : (calcFields s).broadcast < 2 ^ 32 - 1 :=
                hns _ (List.mem_cons_self _ _)
              have hnext1 : (calcFields s).next_subnet = (calcFields s).broadcast + 1 := by
                rw [hnext]
                exact min_eq_left (Nat.succ_le_of_lt hsat)
              refine ⟨?_, ihPair (fun x hx => hns x (List.mem_cons_of_mem _ hx))⟩
              intro y hy
              obtain ⟨ha, -, -, -⟩ := ihAll y hy
              have hstep : (calcFields s).broadcast + 1 ≤ y.network := hnext1 ▸ ha
              exact Nat.lt_of_succ_le hstep

/-- C8 (amended): in every successful `SubnetCalculator::calculate` run each
block's network equals the previous block's `next_subnet` (the cursor is
advanced to `(next_subnet, next_cidr)`), and every block's range satisfies
`network ≤ broadcast`; provided no block's broadcast reaches
`255.255.255.255` (so the saturating cursor never sticks), the ranges
`[network, broadcast]` of distinct blocks are pairwise disjoint, each block
ending strictly before the next begins. -/
theorem C8_disjoint_contiguous :
    ∀ (hostsArr : List Nat) (net cidr : Nat) (c2 : SubnetCalculator),
      net < 2 ^ 32 →
      (SubnetCalculator.new hostsArr).calculate net cidr = some (.ok c2) →
      c2.subnets.Chain' (fun a b => b.network = a.next_subnet) ∧
      (∀ s ∈ c2.subnets, s.network ≤ s.broadcast) ∧
      ((∀ s ∈ c2.subnets, s.broadcast < 2 ^ 32 - 1) →
        c2.subnets.Pairwise (fun a b => a.broadcast < b.network)) := by
  intro hostsArr net cidr c2 hn h
  simp only [SubnetCalculator.calculate, SubnetCalculator.new] at h
  split at h
  · exact absurd h (by simp)
  · exact absurd h (by simp)
  · rename_i l hrun
    have hc : c2 = { subnets := [] ++ l, num_hosts_array := sortDesc hostsArr } :=
      (Except.ok.inj (Option.some.inj h)).symm
    subst hc
    simp only [List.nil_append]
    obtain ⟨-, hAll, hChain, hPair⟩ := run_vlsm_good (sortDesc hostsArr) net cidr l hn hrun
    exact ⟨hChain, fun s hs => (hAll s hs).2.1, hPair⟩

/-- Witness for C8: the run `[2, 2]` from `10.0.0.0/24` produces two chained
non-overlapping `/31` blocks. -/
theorem C8_witness :
    c8w_calc.subnets.Chain' (fun a b => b.network = a.next_subnet) ∧
    (∀ s ∈ c8w_calc.subnets, s.network ≤ s.broadcast) ∧
    ((∀ s ∈ c8w_calc.subnets, s.broadcast < 2 ^ 32 - 1) →
      c8w_calc.subnets.Pairwise (fun a b => a.broadcast < b.network)) :=
  C8_disjoint_contiguous [2, 2] (ipv4 10 0 0 0) 24 c8w_calc (by decide) (by decide)

/-- Counterexample for C8 as stated: allocating `[2, 2]` from
`255.255.255.254/30` saturates the cursor at `255.255.255.255`, and the two
produced blocks occupy the ranges `[255.255.255.254, 255.255.255.255]` and
`[255.255.255.255, 255.255.255.255]`, which overlap at `255.255.255.255`
(the first block's broadcast is not below the second block's network), so
the ranges of distinct blocks are not disjoint. -/
theorem C8_counterexample :
    (subnetsOf c8_sat).map
        (List.map fun s => (s.network, s.broadcast, s.next_subnet)) =
      some [(ipv4 255 255 255 254, ipv4 255 255 255 255, ipv4 255 255 255 255),
            (ipv4 255 255 255 255, ipv4 255 255 255 255, ipv4 255 255 255 255)] ∧
    ¬ ipv4 255 255 255 255 < ipv4 255 255 255 255 := by decide

/-- C2 (amended): `SubnetCalculator::calculate` on network `192.168.1.0`,
CIDR 24, host counts `[10, 50, 2]` sorts the counts to `[50, 10, 2]` and
produces exactly three contiguous non-overlapping blocks: `192.168.1.0/26`
(62 usable hosts), `192.168.1.64/28` (14 usable hosts) and
`192.168.1.80/31` (0 usable hosts); each block's network equals the
previous block's `next_subnet`, and each block's broadcast lies below the
next block's network. -/
theorem C2_vlsm_run :
    sortDesc [10, 50, 2] = [50, 10, 2] ∧
    c2_summaries = some
      [(ipv4 192 168 1 0, 26, 62, ipv4 192 168 1 63, ipv4 192 168 1 64),
       (ipv4 192 168 1 64, 28, 14, ipv4 192 168 1 79, ipv4 192 168 1 80),
       (ipv4 192 168 1 80, 31, 0, ipv4 192 168 1 81, ipv4 192 168 1 82)] ∧
    ipv4 192 168 1 63 < ipv4 192 168 1 64 ∧
    ipv4 192 168 1 79 < ipv4 192 168 1 80 := by decide

/-- Counterexample for C2 as stated: the third block of the run gets
computed prefix 31 with 0 usable hosts, not prefix 30 with 2 usable hosts
as the claim demands. -/
theorem C2_counterexample :
    c2_prefix_hosts = some [(26, 62), (28, 14), (31, 0)] ∧
    ((31, 0) : Nat × Nat) ≠ (30, 2) := by decide

end Subnetting
